import Mathlib

/-
A shallow embedding of the background service worker of the Deep Focus Mode
browser extension (src/browser-extension/src/content/content.js, background
section), covering the decision cache, the per-domain delay tracker, the
navigation interceptor, the enforcement router, the bounded event log, the
override flow and the extension toggle.

Modelling conventions:
* JavaScript `Date.now()` timestamps are `Nat` milliseconds.  All reads of
  `Date.now()` within one synchronous handling of a navigation are modelled
  as a single instant `now` (the host is single-threaded and the handling
  is atomic between suspension points).
* The authority (`fetch` of POST /api/check-block) is modelled as a value
  `authority : Option Decision`: `none` stands for a thrown network error or
  a non-success HTTP status (the code turns both into the same `catch`),
  `some d` for a successful response with parsed body `d`.
* `Map` objects (`blockCache`, `activeDelays`) are modelled as functions
  `String → Option _`; `Map.set` and `Map.delete` become pointwise updates.
* Absent JSON fields: a missing `should_block` is falsy in JS, hence the
  Bool field is `false`; a missing `reminder_message` is `Option.none`.
* The `{ url: [{ schemes: ['http', 'https'] }] }` listener filter and the
  `chrome-extension:` scheme guard are scheme filters on the event source;
  the claims under study quantify over qualifying (http/https) navigations,
  so the embedding starts at a navigation that passed the scheme filter.
-/

namespace DeepFocus

/-- CACHE_DURATION = 30000 ms, from content.js line 256. -/
def CACHE_DURATION : Nat := 30000

/-- Body of a successful POST /api/check-block response, as the background
worker destructures it: `should_block` (gating flag, falsy when absent),
`action`, `delay_seconds`, `reminder_message`, `remaining_focus_time`. -/
structure Decision where
  should_block : Bool
  action : String
  delay_seconds : Nat
  reminder_message : Option String
  remaining_focus_time : Nat
deriving Repr, DecidableEq

/-- Entry of `blockCache`: the decision plus the `Date.now()` at which it
was stored (content.js lines 350-353). -/
structure CacheEntry where
  decision : Decision
  timestamp : Nat
deriving Repr, DecidableEq

/-- Event stored by `logBlockEvent` (content.js lines 545-549): url, action
and a timestamp (the ISO string is abstracted to the instant it encodes). -/
structure EnforcementEvent where
  url : String
  action : String
  timestamp : Nat
deriving Repr, DecidableEq

/-- The `blockCache` map (url to entry) as a function. -/
abbrev Cache : Type := String → Option CacheEntry

/-- The `activeDelays` map (domain to expiresAt) as a function. -/
abbrev Delays : Type := String → Option Nat

/-- Model of `blockCache.set(url, entry)`. -/
def Cache.set (c : Cache) (k : String) (v : CacheEntry) : Cache :=
  fun x => if x = k then some v else c x

/-- Model of `blockCache.delete(url)`. -/
def Cache.del (c : Cache) (k : String) : Cache :=
  fun x => if x = k then none else c x

/-- Model of `activeDelays.set(domain, ...)`. -/
def Delays.set (d : Delays) (k : String) (v : Nat) : Delays :=
  fun x => if x = k then some v else d x

/-- Model of `activeDelays.delete(domain)`. -/
def Delays.del (d : Delays) (k : String) : Delays :=
  fun x => if x = k then none else d x

/-- Result of one `checkBlock(url)` call: the returned decision (`none` both
for a failed call and, never in practice, a null body), the cache after the
call, and how many times the authority was contacted (0 or 1). -/
structure CheckResult where
  decision : Option Decision
  cache : Cache
  authorityCalls : Nat

/-- Model of `checkBlock(url)` (content.js lines 326-360).  On a cache entry younger
than CACHE_DURATION the cached decision is returned with no authority call.
Otherwise the authority is contacted once: on success the decision is stored
at timestamp `now` and returned; on failure (network error or non-ok status,
both reaching the `catch`) `null` is returned and the cache is untouched. -/
def checkBlock (cache : Cache) (authority : Option Decision) (now : Nat)
    (url : String) : CheckResult :=
  match cache url with
  | some cached =>
    if now - cached.timestamp < CACHE_DURATION then
      ⟨some cached.decision, cache, 0⟩
    else
      match authority with
      | none => ⟨none, cache, 1⟩
      | some d => ⟨some d, Cache.set cache url ⟨d, now⟩, 1⟩
  | none =>
    match authority with
    | none => ⟨none, cache, 1⟩
    | some d => ⟨some d, Cache.set cache url ⟨d, now⟩, 1⟩

/-- The three enforcement redirections (blocked.html, delay.html, focus.html)
with the query parameters the background worker passes to them. -/
inductive Redirect where
  | blockPage (url : String) (message : String)
  | delayPage (url : String) (seconds : Nat) (message : String)
  | focusPage (url : String) (minutes : Nat) (message : String)
deriving Repr, DecidableEq

/-- JavaScript `message || default` on an optional string: absent and the
empty string are falsy. -/
def jsOr (s : Option String) (dflt : String) : String :=
  match s with
  | none => dflt
  | some s => if s = "" then dflt else s

/-- Model of `showBlockPage` (content.js lines 407-413). -/
def showBlockPage (url : String) (message : Option String) : Redirect :=
  Redirect.blockPage url (jsOr message "This site is blocked during focus time.")

/-- Model of `showDelayPage` (content.js lines 418-425). -/
def showDelayPage (url : String) (delaySeconds : Nat) (message : Option String) :
    Redirect :=
  Redirect.delayPage url delaySeconds (jsOr message "Access will be granted soon.")

/-- Model of `showFocusRequirement` (content.js lines 430-438): the page receives
`Math.ceil(remainingSeconds / 60)` minutes; on naturals the ceiling of
s / 60 is (s + 59) / 60. -/
def showFocusRequirement (url : String) (remainingSeconds : Nat)
    (message : Option String) : Redirect :=
  Redirect.focusPage url ((remainingSeconds + 59) / 60)
    (jsOr message ("Focus for " ++ toString ((remainingSeconds + 59) / 60) ++
      " more minutes to unlock this site."))

/-- Model of `logBlockEvent` (content.js lines 544-563): push the event, then if the
list exceeds 100 entries drop the oldest (`events.shift()`). -/
def logBlockEvent (events : List EnforcementEvent) (event : EnforcementEvent) :
    List EnforcementEvent :=
  let pushed := events ++ [event]
  if 100 < pushed.length then pushed.tail else pushed

/-- Result of `handleBlockedNavigation`: the redirect issued (none when the
action matches no switch case), the delay map after the call, and the event
log after the unconditional `logBlockEvent(url, action)`. -/
structure HandleResult where
  redirect : Option Redirect
  delays : Delays
  log : List EnforcementEvent

/-- The `switch (action)` body of `handleBlockedNavigation` (content.js
lines 368-398): the redirect issued (none when no case matches — the switch
has no default) and the delay map after the case ran.  `domainOf` stands
for `new URL(url).hostname`. -/
def enforcementSwitch (domainOf : String → String) (delays : Delays)
    (now : Nat) (url : String) (decision : Decision) :
    Option Redirect × Delays :=
  match decision.action with
  | "block" =>
    (some (showBlockPage url decision.reminder_message), delays)
  | "delay" =>
    match delays (domainOf url) with
    | some expiresAt =>
      if now < expiresAt then
        (some (showDelayPage url ((expiresAt - now + 999) / 1000)
          decision.reminder_message), delays)
      else
        (some (showDelayPage url decision.delay_seconds
            decision.reminder_message),
          Delays.set delays (domainOf url) (now + decision.delay_seconds * 1000))
    | none =>
      (some (showDelayPage url decision.delay_seconds
          decision.reminder_message),
        Delays.set delays (domainOf url) (now + decision.delay_seconds * 1000))
  | "conditional" =>
    (some (showFocusRequirement url decision.remaining_focus_time
      decision.reminder_message), delays)
  | _ => (none, delays)

/-- Model of `handleBlockedNavigation(tabId, url, decision)` (content.js lines
365-402): run the switch on `action`, then unconditionally
`logBlockEvent(url, action)` (the call sits after the switch, outside every
case). -/
def handleBlockedNavigation (domainOf : String → String) (delays : Delays)
    (log : List EnforcementEvent) (now : Nat) (url : String)
    (decision : Decision) : HandleResult :=
  match enforcementSwitch domainOf delays now url decision with
  | (r, delays2) => ⟨r, delays2, logBlockEvent log ⟨url, decision.action, now⟩⟩

/-- The mutable background state a navigation touches: `blockCache`,
`activeDelays`, and the persisted `blockEvents` list. -/
structure NavState where
  cache : Cache
  delays : Delays
  log : List EnforcementEvent

/-- Result of one `webNavigation.onBeforeNavigate` handling. -/
structure NavResult where
  redirect : Option Redirect
  state : NavState
  authorityCalls : Nat

/-- The `webNavigation.onBeforeNavigate` listener (content.js lines
297-321) for a navigation that passed the http/https scheme filter: bail
out on a sub-frame or a disabled extension, bail out on localhost hosts,
otherwise `checkBlock` and, when the decision exists and `should_block` is
truthy, run `handleBlockedNavigation`. -/
def onBeforeNavigate (domainOf : String → String) (authority : Option Decision)
    (extensionEnabled : Bool) (frameId : Nat) (now : Nat) (url : String)
    (st : NavState) : NavResult :=
  if frameId ≠ 0 ∨ extensionEnabled = false then ⟨none, st, 0⟩
  else if domainOf url = "localhost" ∨ domainOf url = "127.0.0.1" then
    ⟨none, st, 0⟩
  else
    match checkBlock st.cache authority now url with
    | ⟨some decision, cache2, calls⟩ =>
      if decision.should_block then
        match handleBlockedNavigation domainOf st.delays st.log now url decision with
        | ⟨r, delays2, log2⟩ => ⟨r, ⟨cache2, delays2, log2⟩, calls⟩
      else ⟨none, ⟨cache2, st.delays, st.log⟩, calls⟩
    | ⟨none, cache2, calls⟩ => ⟨none, ⟨cache2, st.delays, st.log⟩, calls⟩

/-- Payload of the fire-and-forget POST /api/override issued by
`logOverride` (content.js lines 568-579). -/
structure OverrideReport where
  url : String
  timestamp : Nat
deriving Repr, DecidableEq

/-- Result of the `overrideBlock` message case: the three pieces of local
state, the report sent to the authority, and the `sendResponse` payload. -/
structure OverrideResult where
  cache : Cache
  delays : Delays
  log : List EnforcementEvent
  report : OverrideReport
  responseSuccess : Bool

/-- The `overrideBlock` message case (content.js lines 490-497):
`activeDelays.delete(domain)`, `blockCache.delete(url)`, `logOverride(url)`
(which only POSTs to the authority, with `.catch` swallowing any failure,
and never touches the local `blockEvents` log), then respond success.
`reportDelivered` is the outcome of the asynchronous report; the code
ignores it, so the result does not depend on it. -/
def overrideBlock (domainOf : String → String) (st : NavState) (now : Nat)
    (url : String) (reportDelivered : Bool) : OverrideResult :=
  let _ := reportDelivered
  { cache := Cache.del st.cache url
    delays := Delays.del st.delays (domainOf url)
    log := st.log
    report := ⟨url, now⟩
    responseSuccess := true }

/-- Top-level initializer `let extensionEnabled = true` (content.js line
265): at every service-worker start the in-memory flag is the literal
`true`; no code path reads the persisted `enabled` value back into it. -/
def startupExtensionEnabled (persistedEnabled : Option Bool) : Bool :=
  let _ := persistedEnabled
  true

/-- The `onInstalled` default-settings step (content.js lines 275-278): when the
persisted `enabled` is falsy (absent or false) it is set to `true`. -/
def onInstalledEnabled (persistedEnabled : Option Bool) : Option Bool :=
  if persistedEnabled = some true then persistedEnabled else some true

/-- The `toggleExtension` message case (content.js lines 484-488), identical
in effect to the context-menu handler (lines 602-608): flip the in-memory
flag and persist the new value.  Returns (new flag, persisted value). -/
def toggleExtension (extensionEnabled : Bool) : Bool × Option Bool :=
  (!extensionEnabled, some (!extensionEnabled))

/- Concrete fixtures used to evaluate the definitions on closed inputs. -/

/-- A `delay` decision: should_block, delay_seconds = 10. -/
def exDelayDecision : Decision := ⟨true, "delay", 10, none, 0⟩

/-- A `block` decision with a reminder message. -/
def exBlockDecision : Decision := ⟨true, "block", 0, some "Stay focused", 0⟩

/-- A `block`-action decision whose `should_block` is false. -/
def exNoBlockDecision : Decision := ⟨false, "block", 0, some "Stay focused", 0⟩

/-- A `conditional` decision with 125 seconds of required focus left. -/
def exCondDecision : Decision := ⟨true, "conditional", 0, none, 125⟩

/-- A decision whose action matches no switch case. -/
def exNoneDecision : Decision := ⟨true, "none", 0, none, 0⟩

/-- Hostname extraction for the fixture URL. -/
def exHost : String → String := fun _ => "reddit.com"

/-- The fixture navigation target. -/
def exUrl : String := "https://reddit.com/"

/-- A cache holding the delay decision for `exUrl`, fetched at time 0. -/
def exCache : Cache := fun x => if x = exUrl then some ⟨exDelayDecision, 0⟩ else none

/-- A cache holding the non-blocking decision for `exUrl`, fetched at 0. -/
def exNoBlockCache : Cache :=
  fun x => if x = exUrl then some ⟨exNoBlockDecision, 0⟩ else none

/-- A delay map with a window for reddit.com expiring at 10000 ms. -/
def exDelays : Delays := fun x => if x = "reddit.com" then some 10000 else none

/-- A delay map with a window for reddit.com expiring at 300000 ms. -/
def exDelays300 : Delays :=
  fun x => if x = "reddit.com" then some 300000 else none

/-- The empty delay map. -/
def emptyDelays : Delays := fun _ => none

/-- The empty cache. -/
def emptyCache : Cache := fun _ => none

/-- Fixture state: delay decision cached at 0, window expiring at 10000. -/
def exState : NavState := ⟨exCache, exDelays, []⟩

/-- Fixture state: non-blocking decision cached at 0. -/
def exNoBlockState : NavState := ⟨exNoBlockCache, exDelays, []⟩

/-- Fixture state with nothing cached and no windows. -/
def emptyState : NavState := ⟨emptyCache, emptyDelays, []⟩

/-- Fixture of 101 distinct events, to drive the log past its bound. -/
def exLongLog : List EnforcementEvent :=
  (List.range 101).map (fun i => ⟨"https://reddit.com/", "block", i⟩)

/- Helper lemmas, shared across the developments below. -/

/-- A fresh cache hit returns the stored decision without an authority call. -/
theorem checkBlock_hit (cache : Cache) (authority : Option Decision) (now : Nat)
    (url : String) (e : CacheEntry) (hc : cache url = some e)
    (hfresh : now - e.timestamp < CACHE_DURATION) :
    checkBlock cache authority now url = ⟨some e.decision, cache, 0⟩ := by
  simp [checkBlock, hc, hfresh]

/-- On a missing or stale entry with a failing authority, `checkBlock`
returns null, leaves the cache untouched, and made one call. -/
theorem checkBlock_miss_fail (cache : Cache) (now : Nat) (url : String)
    (hc : cache url = none ∨
      ∃ e, cache url = some e ∧ CACHE_DURATION ≤ now - e.timestamp) :
    checkBlock cache none now url = ⟨none, cache, 1⟩ := by
  rcases hc with hc | ⟨e, hc, hstale⟩
  · simp [checkBlock, hc]
  · simp [checkBlock, hc, Nat.not_lt.mpr hstale]

/-- On a missing or stale entry with a successful authority, `checkBlock`
returns the fresh decision, stores it at `now`, and made one call. -/
theorem checkBlock_miss_success (cache : Cache) (d : Decision) (now : Nat)
    (url : String)
    (hc : cache url = none ∨
      ∃ e, cache url = some e ∧ CACHE_DURATION ≤ now - e.timestamp) :
    checkBlock cache (some d) now url =
      ⟨some d, Cache.set cache url ⟨d, now⟩, 1⟩ := by
  rcases hc with hc | ⟨e, hc, hstale⟩
  · simp [checkBlock, hc]
  · simp [checkBlock, hc, Nat.not_lt.mpr hstale]

/-- Overwriting a key makes any prior deletion of that key invisible. -/
theorem Delays.set_del (delays : Delays) (k : String) (v : Nat) :
    Delays.set (Delays.del delays k) k v = Delays.set delays k v := by
  funext x
  by_cases hx : x = k <;> simp [Delays.set, Delays.del, hx]

/-- The switch routes an expired or absent window of a `delay` decision to
a fresh full window. -/
theorem enforcementSwitch_delay_no_window (domainOf : String → String)
    (delays : Delays) (now : Nat) (url : String) (d : Decision)
    (hact : d.action = "delay")
    (hwin : ∀ exp, delays (domainOf url) = some exp → exp ≤ now) :
    enforcementSwitch domainOf delays now url d =
      (some (showDelayPage url d.delay_seconds d.reminder_message),
        Delays.set delays (domainOf url) (now + d.delay_seconds * 1000)) := by
  unfold enforcementSwitch
  rw [hact]
  cases hw : delays (domainOf url) with
  | none => rfl
  | some exp =>
    have := hwin exp hw
    simp [Nat.not_lt.mpr this]

/-- An action matching no switch case yields no redirect and leaves the
delay map unchanged. -/
theorem enforcementSwitch_default (domainOf : String → String) (delays : Delays)
    (now : Nat) (url : String) (d : Decision) (h1 : d.action ≠ "block")
    (h2 : d.action ≠ "delay") (h3 : d.action ≠ "conditional") :
    enforcementSwitch domainOf delays now url d = (none, delays) := by
  unfold enforcementSwitch
  split
  · next heq => exact absurd heq h1
  · next heq => exact absurd heq h2
  · next heq => exact absurd heq h3
  · rfl

/-- Claim C8: for every `conditional` decision with remainingFocusSeconds = s,
the enforcement router redirects to the focus-requirement page carrying
minutes-remaining equal to the ceiling of s / 60 (the unique m with
s ≤ 60 * m < s + 60; in particular s = 125 yields 3) together with the
message. -/
theorem C8_conditional_ceil_minutes (domainOf : String → String)
    (delays : Delays) (log : List EnforcementEvent) (now : Nat) (url : String)
    (d : Decision) (hact : d.action = "conditional") :
    ∃ m message,
      (handleBlockedNavigation domainOf delays log now url d).redirect =
        some (Redirect.focusPage url m message) ∧
      d.remaining_focus_time ≤ 60 * m ∧
      60 * m < d.remaining_focus_time + 60 ∧
      (d.remaining_focus_time = 125 → m = 3) := by
  refine ⟨(d.remaining_focus_time + 59) / 60,
    jsOr d.reminder_message ("Focus for " ++
      toString ((d.remaining_focus_time + 59) / 60) ++
      " more minutes to unlock this site."), ?_, ?_, ?_, ?_⟩
  · unfold handleBlockedNavigation enforcementSwitch
    rw [hact]
    rfl
  · omega
  · omega
  · intro h
    rw [h]

/-- Witness for C8 at the scenario input: a `conditional` decision with 125
seconds of required focus left is routed to the focus page with 3 minutes. -/
theorem C8_witness :
    ∃ m message,
      (handleBlockedNavigation exHost emptyDelays [] 0 exUrl
        exCondDecision).redirect = some (Redirect.focusPage exUrl m message) ∧
      125 ≤ 60 * m ∧ 60 * m < 125 + 60 ∧ m = 3 := by
  obtain ⟨m, message, hredir, hlo, hhi, h125⟩ :=
    C8_conditional_ceil_minutes exHost emptyDelays [] 0 exUrl exCondDecision rfl
  exact ⟨m, message, hredir, hlo, hhi, h125 rfl⟩

/-- Claim C4: enforcing a further `delay` decision for a domain while its
window is active (now < expiresAt) leaves the delay map — hence the
window's expiresAt — unchanged, and the delay page shown reports the
remaining time (the ceiling of (expiresAt - now) ms in seconds), not a
fresh full delaySeconds.  At most one window per domain is structural: the
delay map assigns each domain at most one expiry. -/
theorem C4_active_window_preserved (domainOf : String → String)
    (delays : Delays) (log : List EnforcementEvent) (now : Nat) (url : String)
    (d : Decision) (exp : Nat) (hact : d.action = "delay")
    (hwin : delays (domainOf url) = some exp) (hnow : now < exp) :
    (handleBlockedNavigation domainOf delays log now url d).delays = delays ∧
    (handleBlockedNavigation domainOf delays log now url d).redirect =
      some (showDelayPage url ((exp - now + 999) / 1000) d.reminder_message) := by
  unfold handleBlockedNavigation enforcementSwitch
  rw [hact, hwin]
  simp [hnow]

/-- Witness for C4 at the scenario input: window for reddit.com expiring at
t0 + 300 s, second navigation at t0 + 100 s shows 200 remaining seconds,
and the window is untouched. -/
theorem C4_witness :
    (handleBlockedNavigation exHost exDelays300 [] 100000 exUrl
      exDelayDecision).delays = exDelays300 ∧
    (handleBlockedNavigation exHost exDelays300 [] 100000 exUrl
      exDelayDecision).redirect = some (showDelayPage exUrl 200 none) := by
  have h := C4_active_window_preserved exHost exDelays300 [] 100000 exUrl
    exDelayDecision 300000 rfl (by decide) (by decide)
  exact ⟨h.1, h.2⟩

/-- Claim C10: every invocation of the enforcement router appends exactly
one EnforcementEvent (url, action, now), including when the decision's
action is not one of block / delay / conditional, in which case an event is
logged even though no redirect is produced. -/
theorem C10_router_always_appends (domainOf : String → String)
    (delays : Delays) (log : List EnforcementEvent) (now : Nat) (url : String)
    (d : Decision) (hlen : log.length < 100) :
    (handleBlockedNavigation domainOf delays log now url d).log =
      log ++ [⟨url, d.action, now⟩] ∧
    (d.action ≠ "block" → d.action ≠ "delay" → d.action ≠ "conditional" →
      (handleBlockedNavigation domainOf delays log now url d).redirect =
        none) := by
  constructor
  · unfold handleBlockedNavigation
    cases h : enforcementSwitch domainOf delays now url d with
    | mk r delays2 =>
      simp [logBlockEvent]
      intro h100
      exact absurd h100 (by omega)
  · intro h1 h2 h3
    unfold handleBlockedNavigation
    rw [enforcementSwitch_default domainOf delays now url d h1 h2 h3]

/-- Witness for C10: an action outside the switch (here the string "none")
produces no redirect yet appends one event. -/
theorem C10_witness :
    (handleBlockedNavigation exHost exDelays [] 7 exUrl exNoneDecision).log =
      [⟨exUrl, "none", 7⟩] ∧
    (handleBlockedNavigation exHost exDelays [] 7 exUrl
      exNoneDecision).redirect = none := by
  have h := C10_router_always_appends exHost exDelays [] 7 exUrl exNoneDecision
    (by simp)
  exact ⟨h.1, h.2 (by decide) (by decide) (by decide)⟩

/-- Claim C5: when the authority call fails (network error thrown or
non-success status, both modelled by `authority = none`) on a qualifying
navigation whose cache entry is absent or stale, the interception treats
the result as `none`: no redirect, the whole state (cache, delays, log)
unchanged — so the next navigation re-attempts contact — and the handler
returns normally (it is a total function; no fatal error propagates). -/
theorem C5_fail_open (domainOf : String → String) (st : NavState) (now : Nat)
    (url : String)
    (hc : st.cache url = none ∨
      ∃ e, st.cache url = some e ∧ CACHE_DURATION ≤ now - e.timestamp)
    (h1 : domainOf url ≠ "localhost") (h2 : domainOf url ≠ "127.0.0.1") :
    onBeforeNavigate domainOf none true 0 now url st = ⟨none, st, 1⟩ := by
  unfold onBeforeNavigate
  rw [if_neg (by simp), if_neg (by simp [h1, h2]),
    checkBlock_miss_fail st.cache now url hc]

/-- Witness for C5: a navigation with a stale cache entry and an
unreachable authority proceeds unblocked with the state untouched. -/
theorem C5_witness :
    onBeforeNavigate exHost none true 0 40000 exUrl exState =
      ⟨none, exState, 1⟩ :=
  C5_fail_open exHost exState 40000 exUrl
    (Or.inr ⟨⟨exDelayDecision, 0⟩, by decide, by decide⟩) (by decide) (by decide)

/-- Claim C9: enforcement is gated on the decision's `should_block` field:
a decision whose `should_block` is false (or absent, which is falsy) causes
no enforcement and no event-log append even when its action is `block` —
whether the decision came from the cache (first conjunct) or fresh from the
authority, in which case it is still cached (second conjunct). -/
theorem C9_gated_on_should_block :
    (∀ (domainOf : String → String) (authority : Option Decision)
        (st : NavState) (now : Nat) (url : String) (e : CacheEntry),
      st.cache url = some e → now - e.timestamp < CACHE_DURATION →
      e.decision.should_block = false →
      domainOf url ≠ "localhost" → domainOf url ≠ "127.0.0.1" →
      onBeforeNavigate domainOf authority true 0 now url st =
        ⟨none, st, 0⟩) ∧
    (∀ (domainOf : String → String) (st : NavState) (now : Nat) (url : String)
        (d : Decision),
      st.cache url = none → d.should_block = false →
      domainOf url ≠ "localhost" → domainOf url ≠ "127.0.0.1" →
      onBeforeNavigate domainOf (some d) true 0 now url st =
        ⟨none, ⟨Cache.set st.cache url ⟨d, now⟩, st.delays, st.log⟩, 1⟩) := by
  constructor
  · intro domainOf authority st now url e hc hfresh hsb h1 h2
    unfold onBeforeNavigate
    rw [if_neg (by simp), if_neg (by simp [h1, h2]),
      checkBlock_hit st.cache authority now url e hc hfresh]
    simp [hsb]
  · intro domainOf st now url d hc hsb h1 h2
    unfold onBeforeNavigate
    rw [if_neg (by simp), if_neg (by simp [h1, h2]),
      checkBlock_miss_success st.cache d now url (Or.inl hc)]
    simp [hsb]

/-- Witness for C9: a cached `block`-action decision with
`should_block = false` produces no enforcement and no state change. -/
theorem C9_witness :
    onBeforeNavigate exHost none true 0 5000 exUrl exNoBlockState =
      ⟨none, exNoBlockState, 0⟩ ∧
    onBeforeNavigate exHost (some exNoBlockDecision) true 0 5000 exUrl
        emptyState =
      ⟨none, ⟨Cache.set emptyCache exUrl ⟨exNoBlockDecision, 5000⟩,
        emptyDelays, []⟩, 1⟩ :=
  ⟨C9_gated_on_should_block.1 exHost none exNoBlockState 5000 exUrl
      ⟨exNoBlockDecision, 0⟩ (by decide) (by decide) (by decide) (by decide)
      (by decide),
    C9_gated_on_should_block.2 exHost emptyState 5000 exUrl exNoBlockDecision
      (by decide) (by decide) (by decide) (by decide)⟩

/-- Counterexample to claim C3 as stated: a cache entry 40 s old (older
than the 30 s window) is treated as a miss and one fresh authority call is
made, but when that call fails the stale entry is NOT evicted — it is
still in the cache afterwards.  (The code never deletes a stale entry; it
only overwrites it after a successful call.) -/
theorem C3_counterexample :
    CACHE_DURATION ≤ 40000 - (0 : Nat) ∧
    (checkBlock exCache none 40000 exUrl).authorityCalls = 1 ∧
    (checkBlock exCache none 40000 exUrl).cache exUrl =
      some ⟨exDelayDecision, 0⟩ := by
  decide

/-- Claim C3 amended: a lookup within 30 s of the entry's fetch time
returns the stored decision with no authority call; a lookup of an entry
at least 30 s old is treated as a miss and exactly one fresh authority
call is made; the stale entry is not evicted — on a successful call it is
overwritten by the fresh decision (stored at the new fetch time), and on a
failed call it remains in the cache unchanged. -/
theorem C3_cache_ttl_amended :
    (∀ (cache : Cache) (authority : Option Decision) (now : Nat)
        (url : String) (e : CacheEntry),
      cache url = some e → now - e.timestamp < CACHE_DURATION →
      checkBlock cache authority now url = ⟨some e.decision, cache, 0⟩) ∧
    (∀ (cache : Cache) (d : Decision) (now : Nat) (url : String)
        (e : CacheEntry),
      cache url = some e → CACHE_DURATION ≤ now - e.timestamp →
      checkBlock cache (some d) now url =
        ⟨some d, Cache.set cache url ⟨d, now⟩, 1⟩ ∧
      Cache.set cache url ⟨d, now⟩ url = some ⟨d, now⟩) ∧
    (∀ (cache : Cache) (now : Nat) (url : String) (e : CacheEntry),
      cache url = some e → CACHE_DURATION ≤ now - e.timestamp →
      checkBlock cache none now url = ⟨none, cache, 1⟩) := by
  refine ⟨checkBlock_hit, ?_, ?_⟩
  · intro cache d now url e hc hstale
    exact ⟨checkBlock_miss_success cache d now url (Or.inr ⟨e, hc, hstale⟩),
      by simp [Cache.set]⟩
  · intro cache now url e hc hstale
    exact checkBlock_miss_fail cache now url (Or.inr ⟨e, hc, hstale⟩)

/-- Witness for the amended C3 on concrete inputs: fresh hit at 10 s, stale
overwrite at 40 s on success, stale entry untouched at 40 s on failure. -/
theorem C3_witness :
    checkBlock exCache none 10000 exUrl = ⟨some exDelayDecision, exCache, 0⟩ ∧
    checkBlock exCache (some exBlockDecision) 40000 exUrl =
      ⟨some exBlockDecision, Cache.set exCache exUrl ⟨exBlockDecision, 40000⟩,
        1⟩ ∧
    Cache.set exCache exUrl ⟨exBlockDecision, 40000⟩ exUrl =
      some ⟨exBlockDecision, 40000⟩ ∧
    checkBlock exCache none 40000 exUrl = ⟨none, exCache, 1⟩ := by
  have hfresh := C3_cache_ttl_amended.1 exCache none 10000 exUrl
    ⟨exDelayDecision, 0⟩ (by decide) (by decide)
  have hsucc := C3_cache_ttl_amended.2.1 exCache exBlockDecision 40000 exUrl
    ⟨exDelayDecision, 0⟩ (by decide) (by decide)
  have hfail := C3_cache_ttl_amended.2.2 exCache 40000 exUrl
    ⟨exDelayDecision, 0⟩ (by decide) (by decide)
  exact ⟨hfresh, hsucc.1, hsucc.2, hfail⟩

/-- Counterexample to claim C1 as stated: reddit.com's window expired at
10000 ms; at now = 15000 ms the next enforcement check (with the 10 s delay
decision still fresh in the cache, fetched at 0 ms) makes zero authority
calls — the authority is modelled as unreachable, and is not contacted —
yet a brand-new full window to 25000 ms is started from the replayed cached
decision. -/
theorem C1_counterexample :
    exState.delays (exHost exUrl) = some 10000 ∧
    (10000 : Nat) ≤ 15000 ∧
    (onBeforeNavigate exHost none true 0 15000 exUrl exState).authorityCalls
      = 0 ∧
    (onBeforeNavigate exHost none true 0 15000 exUrl exState).state.delays
      "reddit.com" = some 25000 := by
  decide

/-- Claim C1 amended: once now ≥ expiresAt for a domain D, the next
enforcement check treats D as NO_WINDOW — the delay case behaves exactly
as if D had no window, starting a fresh full window rather than replaying
the expired one (first conjunct) — but the authority is re-queried fresh
only when the cached decision for the target is itself absent or stale:
a still-fresh cached decision is replayed with no authority call (second
conjunct), and a fresh query happens exactly when the cache misses (third
conjunct). -/
theorem C1_expiry_amended :
    (∀ (domainOf : String → String) (delays : Delays)
        (log : List EnforcementEvent) (now : Nat) (url : String)
        (d : Decision) (exp : Nat),
      d.action = "delay" → delays (domainOf url) = some exp → exp ≤ now →
      handleBlockedNavigation domainOf delays log now url d =
        handleBlockedNavigation domainOf (Delays.del delays (domainOf url))
          log now url d) ∧
    (∀ (domainOf : String → String) (st : NavState) (now : Nat)
        (url : String) (e : CacheEntry),
      st.cache url = some e → now - e.timestamp < CACHE_DURATION →
      domainOf url ≠ "localhost" → domainOf url ≠ "127.0.0.1" →
      (onBeforeNavigate domainOf none true 0 now url st).authorityCalls
        = 0) ∧
    (∀ (domainOf : String → String) (authority : Option Decision)
        (st : NavState) (now : Nat) (url : String),
      (st.cache url = none ∨
        ∃ e, st.cache url = some e ∧ CACHE_DURATION ≤ now - e.timestamp) →
      domainOf url ≠ "localhost" → domainOf url ≠ "127.0.0.1" →
      (onBeforeNavigate domainOf authority true 0 now url st).authorityCalls
        = 1) := by
  refine ⟨?_, ?_, ?_⟩
  · intro domainOf delays log now url d exp hact hwin hexp
    have hA := enforcementSwitch_delay_no_window domainOf delays now url d hact
      (fun e he => by rw [hwin] at he; injection he with h; subst h; exact hexp)
    have hB := enforcementSwitch_delay_no_window domainOf
      (Delays.del delays (domainOf url)) now url d hact
      (fun e he => by simp [Delays.del] at he)
    unfold handleBlockedNavigation
    rw [hA, hB, Delays.set_del]
  · intro domainOf st now url e hc hfresh h1 h2
    unfold onBeforeNavigate
    rw [if_neg (by simp), if_neg (by simp [h1, h2]),
      checkBlock_hit st.cache none now url e hc hfresh]
    by_cases hsb : e.decision.should_block <;> simp [hsb]
  · intro domainOf authority st now url hc h1 h2
    unfold onBeforeNavigate
    rw [if_neg (by simp), if_neg (by simp [h1, h2])]
    cases authority with
    | none => rw [checkBlock_miss_fail st.cache now url hc]
    | some d =>
      rw [checkBlock_miss_success st.cache d now url hc]
      by_cases hsb : d.should_block <;> simp [hsb]

/-- Witness for the amended C1 on concrete inputs: the expired-window check
equals the no-window check; a fresh cache hit makes 0 calls; a stale cache
makes 1 call. -/
theorem C1_witness :
    handleBlockedNavigation exHost exDelays [] 15000 exUrl exDelayDecision =
      handleBlockedNavigation exHost (Delays.del exDelays (exHost exUrl)) []
        15000 exUrl exDelayDecision ∧
    (onBeforeNavigate exHost none true 0 15000 exUrl exState).authorityCalls
      = 0 ∧
    (onBeforeNavigate exHost none true 0 40000 exUrl exState).authorityCalls
      = 1 :=
  ⟨C1_expiry_amended.1 exHost exDelays [] 15000 exUrl exDelayDecision 10000
      rfl (by decide) (by decide),
    C1_expiry_amended.2.1 exHost exState 15000 exUrl ⟨exDelayDecision, 0⟩
      (by decide) (by decide) (by decide) (by decide),
    C1_expiry_amended.2.2 exHost none exState 40000 exUrl
      (Or.inr ⟨⟨exDelayDecision, 0⟩, by decide, by decide⟩) (by decide)
      (by decide)⟩

/-- Counterexample to claim C2 as stated: an override for `exUrl` starting
from an empty local event log leaves the log empty — no override record is
appended to the local event log (the code's `logOverride` only POSTs to the
authority), contradicting "appends exactly one override record to the local
event log". -/
theorem C2_counterexample :
    (overrideBlock exHost exState 5000 exUrl true).log = [] := rfl

/-- Claim C2 amended: override(T) removes the cache entry for exactly T
(other targets untouched), clears the DelayWindow for T's domain (other
domains untouched), reports the override asynchronously to the authority
and responds success, with the local effects independent of the report's
outcome (any reporting failure is swallowed); it does NOT append an
override record to the local event log — the log is unchanged. -/
theorem C2_override_amended (domainOf : String → String) (st : NavState)
    (now : Nat) (url : String) (b : Bool) :
    (overrideBlock domainOf st now url b).cache url = none ∧
    (∀ t, t ≠ url → (overrideBlock domainOf st now url b).cache t =
      st.cache t) ∧
    (overrideBlock domainOf st now url b).delays (domainOf url) = none ∧
    (∀ dom, dom ≠ domainOf url →
      (overrideBlock domainOf st now url b).delays dom = st.delays dom) ∧
    (overrideBlock domainOf st now url b).log = st.log ∧
    (overrideBlock domainOf st now url b).report = ⟨url, now⟩ ∧
    (overrideBlock domainOf st now url b).responseSuccess = true ∧
    (∀ b2, overrideBlock domainOf st now url b2 =
      overrideBlock domainOf st now url b) := by
  refine ⟨by simp [overrideBlock, Cache.del], ?_, by simp [overrideBlock, Delays.del],
    ?_, rfl, rfl, rfl, fun b2 => rfl⟩
  · intro t ht
    simp [overrideBlock, Cache.del, ht]
  · intro dom hdom
    simp [overrideBlock, Delays.del, hdom]

/-- Witness for the amended C2 on concrete inputs. -/
theorem C2_witness :
    (overrideBlock exHost exState 5000 exUrl true).cache exUrl = none ∧
    (overrideBlock exHost exState 5000 exUrl true).cache "https://other.com/"
      = exState.cache "https://other.com/" ∧
    (overrideBlock exHost exState 5000 exUrl true).delays (exHost exUrl)
      = none ∧
    (overrideBlock exHost exState 5000 exUrl true).delays "example.com"
      = exState.delays "example.com" ∧
    (overrideBlock exHost exState 5000 exUrl true).log = exState.log ∧
    (overrideBlock exHost exState 5000 exUrl true).report = ⟨exUrl, 5000⟩ ∧
    (overrideBlock exHost exState 5000 exUrl true).responseSuccess = true ∧
    overrideBlock exHost exState 5000 exUrl false =
      overrideBlock exHost exState 5000 exUrl true := by
  have h := C2_override_amended exHost exState 5000 exUrl true
  exact ⟨h.1, h.2.1 _ (by decide), h.2.2.1, h.2.2.2.1 _ (by decide),
    h.2.2.2.2.1, h.2.2.2.2.2.1, h.2.2.2.2.2.2.1, h.2.2.2.2.2.2.2 false⟩

/-- Claim C6, code-bug record: the toggle is initialized to enabled on
first install (first conjunct) and every mutation persists the new value
(second conjunct), but at process start the in-memory flag is the literal
`true` regardless of the persisted value — a persisted `false` is NOT
loaded back (third conjunct), contradicting the load-at-start half of the
claimed lifecycle. -/
theorem C6_toggle_not_reloaded :
    onInstalledEnabled none = some true ∧
    toggleExtension true = (false, some false) ∧
    startupExtensionEnabled (some false) = true :=
  ⟨rfl, rfl, rfl⟩

/-- Appending below the bound is a plain append. -/
theorem logBlockEvent_of_lt (s : List EnforcementEvent) (e : EnforcementEvent)
    (h : s.length < 100) : logBlockEvent s e = s ++ [e] := by
  simp only [logBlockEvent]
  rw [if_neg]
  simp
  omega

/-- Appending at the bound drops the oldest entry. -/
theorem logBlockEvent_of_eq (s : List EnforcementEvent) (e : EnforcementEvent)
    (h : s.length = 100) : logBlockEvent s e = (s ++ [e]).tail := by
  simp only [logBlockEvent]
  rw [if_pos]
  simp
  omega

/-- Closed form of a run of `logBlockEvent` calls from a state within the
bound: the result is the concatenation with everything beyond the 100 most
recent entries dropped from the front. -/
theorem foldl_logBlockEvent_eq_drop (l : List EnforcementEvent) :
    ∀ s : List EnforcementEvent, s.length ≤ 100 →
      l.foldl logBlockEvent s = (s ++ l).drop (s.length + l.length - 100) := by
  induction l with
  | nil =>
    intro s hs
    simp [Nat.sub_eq_zero_of_le hs]
  | cons e l ih =>
    intro s hs
    rw [List.foldl_cons]
    by_cases h100 : s.length = 100
    · obtain ⟨a, s2, rfl⟩ : ∃ a s2, s = a :: s2 := by
        cases s with
        | nil => simp at h100
        | cons a s2 => exact ⟨a, s2, rfl⟩
      have hlen : s2.length = 99 := by
        simpa using h100
      rw [logBlockEvent_of_eq _ e h100]
      have htail : ((a :: s2) ++ [e]).tail = s2 ++ [e] := by
        simp
      rw [htail, ih (s2 ++ [e]) (by simp [hlen])]
      have hidx1 : (s2 ++ [e]).length + l.length - 100 = l.length := by
        simp [hlen]
      have hidx2 : (a :: s2).length + (e :: l).length - 100 = l.length + 1 := by
        simp [hlen]
      rw [hidx1, hidx2]
      have hlist : (s2 ++ [e]) ++ l = s2 ++ e :: l := by
        simp
      rw [hlist]
      have hlist2 : (a :: s2) ++ e :: l = a :: (s2 ++ e :: l) := by
        simp
      rw [hlist2, List.drop_succ_cons]
    · have hlt : s.length < 100 := by omega
      rw [logBlockEvent_of_lt s e hlt, ih (s ++ [e]) (by simp; omega)]
      have hidx : (s ++ [e]).length + l.length - 100 =
          s.length + (e :: l).length - 100 := by
        simp
        omega
      rw [hidx]
      have hlist : (s ++ [e]) ++ l = s ++ e :: l := by
        simp
      rw [hlist]

/-- Claim C7: for every sequence of record calls starting from the empty
log, the event log never holds more than 100 entries after a record
completes (first conjunct), and after 101 appends the first-appended entry
has been dropped and the log is exactly the 100 most recent events in
order (second conjunct). -/
theorem C7_log_ring_buffer :
    (∀ l : List EnforcementEvent, (l.foldl logBlockEvent []).length ≤ 100) ∧
    (∀ l : List EnforcementEvent, l.length = 101 →
      l.foldl logBlockEvent [] = l.tail) := by
  constructor
  · intro l
    rw [foldl_logBlockEvent_eq_drop l [] (by simp)]
    simp
    omega
  · intro l hl
    rw [foldl_logBlockEvent_eq_drop l [] (by simp)]
    simp [hl, List.drop_one]

/-- Witness for C7: running the 101 fixture events through the log from
empty keeps it within the bound and yields exactly the last 100 events. -/
theorem C7_witness :
    (exLongLog.foldl logBlockEvent []).length ≤ 100 ∧
    exLongLog.foldl logBlockEvent [] = exLongLog.tail :=
  ⟨C7_log_ring_buffer.1 exLongLog,
    C7_log_ring_buffer.2 exLongLog (by simp [exLongLog])⟩

end DeepFocus
